import Mathlib

/-!
Verification of the Anyscale Academy notebook snippets.

This file gives a shallow embedding, in Lean 4, of the executable snippets
that the repository's notebooks define, and proves the specified properties
about them:

* the `SimpleContextualBandit` gym environment from the multi-armed-bandit
  lesson (fields `action_space`, `observation_space`, `current_context`,
  `rewards_for_context`; methods `reset` and `step`);
* the `nudge_dataset` image-shifting helper (with the `shift` inner function
  built on `scipy.ndimage.convolve` with `mode='constant'`) from the
  multiprocessing/joblib lesson;
* the `run_with_pool` wrapper around `pool.map` from the same lesson;
* the `tune.run` configuration with two `grid_search([20, 40])` axes from the
  hyperparameter-tuning lesson;
* the error path of the `ray.tune.run` notebook cell.

Python floats that occur (the context values -1.0 and 1.0, the Box bounds)
are integral and all arithmetic on them is exact, so they are embedded as
`Int`.  The randomness of `random.choice([-1., 1.])` is externalized as a
`Fin 2` index into the literal list the code passes to `random.choice`.
Dictionary lookup and list indexing, which can raise in Python, are embedded
as `Option`-valued operations.
-/

/-- Embedding of `gym.spaces.Discrete(n)`: a discrete space with `n` values. -/
structure DiscreteSpace where
  n : Nat
deriving DecidableEq, Repr

/-- Embedding of `gym.spaces.Box(low, high, shape=(len,))` with integral
float bounds. -/
structure BoxSpace where
  low : Int
  high : Int
  len : Nat
deriving DecidableEq, Repr

/-- Embedding of the `info` dictionary returned by
`SimpleContextualBandit.step`, which has the single key `"regret"`. -/
structure StepInfo where
  regret : Int
deriving DecidableEq, Repr

/-- Embedding of the state of a `SimpleContextualBandit` instance: the four
fields assigned in `__init__`.  The reward dictionary, keyed by the float
context value, is embedded as an association list over `Int`. -/
structure SimpleContextualBandit where
  action_space : DiscreteSpace
  observation_space : BoxSpace
  current_context : Option Int
  rewards_for_context : List (Int × List Int)
deriving DecidableEq, Repr

namespace SimpleContextualBandit

/-- Embedding of `SimpleContextualBandit.__init__` (with the default
`config=None`): `action_space = Discrete(3)`,
`observation_space = Box(low=-1., high=1., shape=(2,))`,
`current_context = None`, and
`rewards_for_context = {-1.: [-10, 0, 10], 1.: [10, 0, -10]}`. -/
def init : SimpleContextualBandit :=
  { action_space := ⟨3⟩
    observation_space := ⟨-1, 1, 2⟩
    current_context := none
    rewards_for_context := [(-1, [-10, 0, 10]), (1, [10, 0, -10])] }

/-- Embedding of `SimpleContextualBandit.reset`: sets `current_context` to
`random.choice([-1., 1.])` (the random index is the explicit argument
`pick`) and returns `np.array([-current_context, current_context])`. -/
def reset (b : SimpleContextualBandit) (pick : Fin 2) :
    SimpleContextualBandit × List Int :=
  let c : Int := [-1, 1].get pick
  ({ b with current_context := some c }, [-c, c])

/-- Embedding of `SimpleContextualBandit.step`: reads
`rewards_for_context[current_context][action]` and returns the 4-tuple
`(np.array([-current_context, current_context]), reward, True,
{"regret": 10 - reward})`.  The post-state is returned as the first
component; the body assigns no field, so it is the receiver unchanged.
A `KeyError` (context `None` or absent from the dictionary) or an
`IndexError` (action out of range) is embedded as `none`. -/
def step (b : SimpleContextualBandit) (action : Nat) :
    Option (SimpleContextualBandit × List Int × Int × Bool × StepInfo) := do
  let c ← b.current_context
  let rewards ← b.rewards_for_context.lookup c
  let reward ← rewards.get? action
  pure (b, [-c, c], reward, true, ⟨10 - reward⟩)

end SimpleContextualBandit

/-- An operation on the bandit environment: a `reset` call (with its random
pick) or a `step` call (with its action). -/
inductive BanditOp where
  | doReset (pick : Fin 2)
  | doStep (action : Nat)
deriving DecidableEq, Repr

/-- Applies one operation to the environment state, keeping only the
post-state.  A raising `step` (embedded as `none`) leaves the state as it
was at the raise point, since the method body mutates nothing. -/
def applyOp (b : SimpleContextualBandit) : BanditOp → SimpleContextualBandit
  | .doReset pick => (b.reset pick).1
  | .doStep action =>
    match b.step action with
    | some (b', _, _, _, _) => b'
    | none => b

/-- Runs a sequence of operations from a starting state. -/
def runOps (b : SimpleContextualBandit) (ops : List BanditOp) :
    SimpleContextualBandit :=
  ops.foldl applyOp b

/-!
The `nudge_dataset` helper.  A data row is a 64-element list, read by
`x.reshape((8, 8))` as an 8x8 image in row-major order.  `getPix` reads pixel
`(i, j)` of that image, with the zero padding of `mode='constant'` (and
`cval=0.0`) outside the 8x8 range.
-/

/-- Pixel `(i, j)` of the 8x8 row-major image stored in the 64-element row
`x`, with the zero padding of the convolution's `mode='constant'` outside
the image. -/
def getPix (x : List Int) (i j : Int) : Int :=
  if 0 ≤ i ∧ i < 8 ∧ 0 ≤ j ∧ j < 8 then x.getD (i * 8 + j).toNat 0 else 0

/-- One output element of `scipy.ndimage.convolve(image, weights=w,
mode='constant', cval=0.0)` for a 3x3 kernel `w`: with the kernel origin at
its centre, `C[i][j] = sum over r c of I[i+1-r][j+1-c] * w[r][c]`. -/
def convElt (x : List Int) (w : List (List Int)) (i j : Int) : Int :=
  ((List.range 3).map (fun r =>
    ((List.range 3).map (fun c =>
      getPix x (i + 1 - Int.ofNat r) (j + 1 - Int.ofNat c) *
        ((w.getD r []).getD c 0))).sum)).sum

/-- Embedding of the inner `shift` function of `nudge_dataset`:
`convolve(x.reshape((8, 8)), mode='constant', weights=w).ravel()`. -/
def shift (x : List Int) (w : List (List Int)) : List Int :=
  (List.range 64).map (fun t => convElt x w ((t / 8 : Nat) : Int) ((t % 8 : Nat) : Int))

/-- The four 3x3 direction kernels of `nudge_dataset`, in source order. -/
def direction_vectors : List (List (List Int)) :=
  [[[0, 1, 0],
    [0, 0, 0],
    [0, 0, 0]],
   [[0, 0, 0],
    [1, 0, 0],
    [0, 0, 0]],
   [[0, 0, 0],
    [0, 0, 1],
    [0, 0, 0]],
   [[0, 0, 0],
    [0, 0, 0],
    [0, 1, 0]]]

/-- Embedding of `nudge_dataset(X, Y)`:
`X' = np.concatenate([X] + [np.apply_along_axis(shift, 1, X, v) for v in
direction_vectors])` (the original rows followed by the four shifted copies,
one block per kernel, in order) and `Y' = np.concatenate([Y for _ in
range(5)])`. -/
def nudge_dataset {α : Type} (X : List (List Int)) (Y : List α) :
    List (List Int) × List α :=
  (X ++ (direction_vectors.map (fun v => X.map (fun x => shift x v))).flatten,
   ((List.range 5).map (fun _ => Y)).flatten)

/-!
Image translations, written from the spec's words ("the original images moved
around by 1px to left, right, down, up", "zeros filled in at the vacated
border").  Rows are indexed top to bottom and columns left to right, as an
image is displayed, so moving the image left puts pixel `(i, j+1)` at
`(i, j)`, moving it up puts pixel `(i+1, j)` at `(i, j)`, and so on.
-/

/-- The 8x8 image of row `x` moved 1px to the left, flattened. -/
def movedLeft (x : List Int) : List Int :=
  (List.range 64).map (fun t => getPix x ((t / 8 : Nat) : Int) (((t % 8 : Nat) : Int) + 1))

/-- The 8x8 image of row `x` moved 1px to the right, flattened. -/
def movedRight (x : List Int) : List Int :=
  (List.range 64).map (fun t => getPix x ((t / 8 : Nat) : Int) (((t % 8 : Nat) : Int) - 1))

/-- The 8x8 image of row `x` moved 1px up, flattened. -/
def movedUp (x : List Int) : List Int :=
  (List.range 64).map (fun t => getPix x (((t / 8 : Nat) : Int) + 1) ((t % 8 : Nat) : Int))

/-- The 8x8 image of row `x` moved 1px down, flattened. -/
def movedDown (x : List Int) : List Int :=
  (List.range 64).map (fun t => getPix x (((t / 8 : Nat) : Int) - 1) ((t % 8 : Nat) : Int))

/-!
The `run_with_pool` example from the multiprocessing lesson, and the tuning
lesson's grid-search configuration.
-/

/-- Embedding of the map method of the external `ray.util.multiprocessing`
pool under its standard order-preserving semantics: the results of applying
`g`, in the order of the inputs. -/
def poolMap {α β : Type} (g : α → β) (xs : List α) : List β :=
  xs.map g

/-- Embedding of the identity worker function `f` of the multiprocessing
lesson. -/
def f (index : Nat) : Nat :=
  index

/-- Embedding of `run_with_pool(n)`: iterates over `pool.map(f, range(n))`
printing each result followed by a bar; the value is the list of printed
fragments, in print order. -/
def run_with_pool (n : Nat) : List String :=
  (poolMap f (List.range n)).map (fun result => toString result ++ "|")

/-- The two grid-search axes the tuning lesson's configuration puts in
`fcnet_hiddens`: `[tune.grid_search([20, 40]), tune.grid_search([20, 40])]`. -/
def fcnet_hiddens_grid : List (List Nat) :=
  [[20, 40], [20, 40]]

/-- Cross product of grid-search axes, as the external tuning library
expands them: one combination per choice of one value from each axis, the
first axis varying slowest. -/
def gridCombos {α : Type} : List (List α) → List (List α)
  | [] => [[]]
  | g :: rest => g.flatMap (fun v => (gridCombos rest).map (fun combo => v :: combo))

/-- Embedding of the notebook cell `analysis = ray.tune.run(...)`: the
repository-defined state around the external call is the binding of the
variable named in the assignment, and the cell's only code is that
assignment.  Given the external call's outcome, the cell yields the new
binding and the exception, if any, seen at the notebook top level: on
success the binding is updated and no exception escapes; on an external
exception the binding is untouched and the exception object escapes as
raised. -/
def tuneRunCell {A E : Type} (analysis : Option A) (ext : Except E A) :
    Option A × Option E :=
  match ext with
  | .ok a => (some a, none)
  | .error e => (analysis, some e)

/-- The optimal arm for a context, as the lesson's narration states it: the
third arm (index 2) for context -1.0 and the first arm (index 0) for
context 1.0. -/
def optimalArm (c : Int) : Nat :=
  if c = -1 then 2 else 0

/-- The per-arm slope coefficients of the claimed linear reward model:
`m_0 = 10`, `m_1 = 0`, `m_2 = -10`. -/
def m_coefficients : List Int :=
  [10, 0, -10]

/-- A concrete 8x8 test image: a single unit pixel at row 2, column 2 of
the row-major 64-element row. -/
def examplePixel : List Int :=
  (List.range 64).map (fun t => if t = 18 then 1 else 0)

/-!
Helper lemmas, shared by the claim theorems below.
-/

namespace SimpleContextualBandit

theorem step_post_state (b : SimpleContextualBandit) (a : Nat)
    (out : SimpleContextualBandit × List Int × Int × Bool × StepInfo)
    (h : b.step a = some out) : out.1 = b := by
  cases hc : b.current_context with
  | none => simp [step, hc] at h
  | some c =>
    cases hr : b.rewards_for_context.lookup c with
    | none => simp [step, hc, hr] at h
    | some rewards =>
      cases hg : rewards[a]? with
      | none => simp [step, hc, hr, hg] at h
      | some reward =>
        simp [step, hc, hr, hg] at h
        exact congrArg Prod.fst h.symm

end SimpleContextualBandit

theorem applyOp_doStep (b : SimpleContextualBandit) (a : Nat) :
    applyOp b (.doStep a) = b := by
  cases h : b.step a with
  | none => simp [applyOp, h]
  | some out =>
    obtain ⟨b', o, r, d, i⟩ := out
    simp only [applyOp, h]
    simpa using SimpleContextualBandit.step_post_state b a _ h

theorem applyOp_frame (b : SimpleContextualBandit) (op : BanditOp) :
    (applyOp b op).rewards_for_context = b.rewards_for_context ∧
    (applyOp b op).action_space = b.action_space ∧
    (applyOp b op).observation_space = b.observation_space := by
  cases op with
  | doReset pick => exact ⟨rfl, rfl, rfl⟩
  | doStep a => rw [applyOp_doStep]; exact ⟨rfl, rfl, rfl⟩

theorem runOps_frame (ops : List BanditOp) (b : SimpleContextualBandit) :
    (runOps b ops).rewards_for_context = b.rewards_for_context ∧
    (runOps b ops).action_space = b.action_space ∧
    (runOps b ops).observation_space = b.observation_space := by
  induction ops generalizing b with
  | nil => exact ⟨rfl, rfl, rfl⟩
  | cons op rest ih =>
    have h1 := applyOp_frame b op
    have h2 := ih (applyOp b op)
    exact ⟨h2.1.trans h1.1, h2.2.1.trans h1.2.1, h2.2.2.trans h1.2.2⟩

theorem runOps_doStep_id (b : SimpleContextualBandit) (actions : List Nat) :
    runOps b (actions.map BanditOp.doStep) = b := by
  induction actions generalizing b with
  | nil => rfl
  | cons a rest ih =>
    show runOps (applyOp b (.doStep a)) (rest.map BanditOp.doStep) = b
    rw [applyOp_doStep]
    exact ih b

theorem step_eval (b : SimpleContextualBandit) (c : Int) (a : Nat)
    (hc : c = -1 ∨ c = 1) (ha : a < 3)
    (hctx : b.current_context = some c)
    (htab : b.rewards_for_context = SimpleContextualBandit.init.rewards_for_context) :
    b.step a = some (b, [-c, c],
      (if c = -1 then [-10, 0, 10] else [10, 0, -10]).getD a 0, true,
      ⟨10 - (if c = -1 then [-10, 0, 10] else [10, 0, -10]).getD a 0⟩) := by
  have ha3 : a = 0 ∨ a = 1 ∨ a = 2 := by omega
  rcases hc with rfl | rfl <;> rcases ha3 with rfl | rfl | rfl <;>
    simp [SimpleContextualBandit.step, hctx, htab, SimpleContextualBandit.init,
      List.lookup]

theorem shift_k1 (x : List Int) :
    shift x (direction_vectors.getD 0 []) = movedUp x := by
  unfold shift movedUp direction_vectors
  refine List.map_congr_left ?_
  intro t ht
  simp [convElt, List.range_succ]

theorem shift_k2 (x : List Int) :
    shift x (direction_vectors.getD 1 []) = movedLeft x := by
  unfold shift movedLeft direction_vectors
  refine List.map_congr_left ?_
  intro t ht
  simp [convElt, List.range_succ]

theorem shift_k3 (x : List Int) :
    shift x (direction_vectors.getD 2 []) = movedRight x := by
  unfold shift movedRight direction_vectors
  refine List.map_congr_left ?_
  intro t ht
  simp [convElt, List.range_succ]
  congr 1
  omega

theorem shift_k4 (x : List Int) :
    shift x (direction_vectors.getD 3 []) = movedDown x := by
  unfold shift movedDown direction_vectors
  refine List.map_congr_left ?_
  intro t ht
  simp [convElt, List.range_succ]
  congr 1
  omega

/-!
Claim theorems.
-/

/-- C1: for every current context c in {-1.0, 1.0} and every action a in
{0, 1, 2}, `SimpleContextualBandit.step(a)` returns the 4-tuple
(observation, reward, done, info) where the observation is the array
`[-c, c]`, the reward is `rewards_for_context[c][a]` (the entry of the fixed
reward table keyed by the context value), done is True, and info is the
dictionary with single entry "regret" mapped to `10 - reward` (the
environment state itself is returned unchanged alongside). -/
theorem scb_step_returns_tuple (b : SimpleContextualBandit) (c : Int) (a : Nat)
    (hc : c = -1 ∨ c = 1) (ha : a < 3)
    (hctx : b.current_context = some c)
    (htab : b.rewards_for_context = SimpleContextualBandit.init.rewards_for_context) :
    b.step a = some (b, [-c, c],
      (if c = -1 then [-10, 0, 10] else [10, 0, -10]).getD a 0, true,
      ⟨10 - (if c = -1 then [-10, 0, 10] else [10, 0, -10]).getD a 0⟩) :=
  step_eval b c a hc ha hctx htab

/-- C1 witness: the theorem instantiated at context 1.0 (set by a reset that
picked index 1) and action 0: the step returns observation [-1, 1],
reward 10, done, and regret 0. -/
theorem scb_step_returns_tuple_witness :
    ((SimpleContextualBandit.init.reset 1).1).step 0 =
      some ((SimpleContextualBandit.init.reset 1).1, [-(1 : Int), 1],
        (if (1 : Int) = -1 then [-10, 0, 10] else [10, 0, -10]).getD 0 0, true,
        ⟨10 - (if (1 : Int) = -1 then [-10, 0, 10] else [10, 0, -10]).getD 0 0⟩) :=
  scb_step_returns_tuple (SimpleContextualBandit.init.reset 1).1 1 0
    (Or.inr rfl) (by decide) rfl rfl

/-- C2: the reward table is fixed: after `__init__` the table is exactly
{-1.0: [-10, 0, 10], 1.0: [10, 0, -10]}, and after every sequence of reset
and step operations it is unchanged, as are the action and observation
spaces. -/
theorem scb_reward_table_fixed (ops : List BanditOp) :
    SimpleContextualBandit.init.rewards_for_context =
      [(-1, [-10, 0, 10]), (1, [10, 0, -10])] ∧
    (runOps SimpleContextualBandit.init ops).rewards_for_context =
      [(-1, [-10, 0, 10]), (1, [10, 0, -10])] ∧
    (runOps SimpleContextualBandit.init ops).action_space =
      SimpleContextualBandit.init.action_space ∧
    (runOps SimpleContextualBandit.init ops).observation_space =
      SimpleContextualBandit.init.observation_space := by
  have h := runOps_frame ops SimpleContextualBandit.init
  exact ⟨rfl, h.1, h.2.1, h.2.2⟩

/-- C3: `nudge_dataset(X, Y)` returns a dataset 5 times bigger than the
original: X' has 5n rows whose first n rows are X itself, and Y' is five
concatenated copies of Y, of length 5n.  (The embedding is purely
functional, so the inputs are unmodified by construction.) -/
theorem nudge_dataset_five_times_bigger {α : Type} (X : List (List Int)) (Y : List α) :
    (nudge_dataset X Y).1.length = 5 * X.length ∧
    (nudge_dataset X Y).1.take X.length = X ∧
    (nudge_dataset X Y).2.length = 5 * Y.length ∧
    (nudge_dataset X Y).2 = Y ++ (Y ++ (Y ++ (Y ++ Y))) := by
  refine ⟨?_, ?_, ?_, ?_⟩
  · simp [nudge_dataset, direction_vectors]
    ring
  · simp only [nudge_dataset]
    exact List.take_left' rfl
  · simp [nudge_dataset, List.range_succ]
    ring
  · simp [nudge_dataset, List.range_succ]

/-- C4 counterexample: the first appended block of `nudge_dataset` is not
the original image moved 1px to the left; on the single-pixel image it is
the image moved 1px up.  (The claim pairs the four kernels with the
directions left, right, down, up in that order; the code's first kernel
shifts the image up, not left.) -/
theorem nudge_first_block_not_moved_left :
    (nudge_dataset [examplePixel] ([] : List Int)).1.getD 1 [] ≠ movedLeft examplePixel ∧
    (nudge_dataset [examplePixel] ([] : List Int)).1.getD 1 [] = movedUp examplePixel := by
  decide

/-- C4 (amended): the four appended blocks of `nudge_dataset` are the
original images moved around by 1px up, left, right and down respectively
(rows indexed top to bottom as displayed): each direction kernel convolved
with `mode='constant'` translates the 8x8 image by exactly one pixel along
one axis with zeros filled in at the vacated border. -/
theorem nudge_blocks_are_translations {α : Type} (X : List (List Int)) (Y : List α)
    (x : List Int) :
    (nudge_dataset X Y).1 =
      X ++ (X.map movedUp ++ (X.map movedLeft ++ (X.map movedRight ++ X.map movedDown))) ∧
    shift x (direction_vectors.getD 0 []) = movedUp x ∧
    shift x (direction_vectors.getD 1 []) = movedLeft x ∧
    shift x (direction_vectors.getD 2 []) = movedRight x ∧
    shift x (direction_vectors.getD 3 []) = movedDown x := by
  refine ⟨?_, shift_k1 x, shift_k2 x, shift_k3 x, shift_k4 x⟩
  have e1 : X.map (fun y => shift y [[0, 1, 0], [0, 0, 0], [0, 0, 0]]) = X.map movedUp :=
    List.map_congr_left (fun y _ => shift_k1 y)
  have e2 : X.map (fun y => shift y [[0, 0, 0], [1, 0, 0], [0, 0, 0]]) = X.map movedLeft :=
    List.map_congr_left (fun y _ => shift_k2 y)
  have e3 : X.map (fun y => shift y [[0, 0, 0], [0, 0, 1], [0, 0, 0]]) = X.map movedRight :=
    List.map_congr_left (fun y _ => shift_k3 y)
  have e4 : X.map (fun y => shift y [[0, 0, 0], [0, 0, 0], [0, 1, 0]]) = X.map movedDown :=
    List.map_congr_left (fun y _ => shift_k4 y)
  simp [nudge_dataset, direction_vectors, e1, e2, e3, e4]

/-- C5: an exception raised by the external `ray.tune.run` call propagates
unchanged to the notebook top level: the cell around the call is a single
assignment, so on the error path the escaping exception is the raised
object itself and the repository-defined binding is unmodified. -/
theorem tune_error_passthrough {A E : Type} (analysis : Option A) (e : E) :
    tuneRunCell analysis (Except.error e) = (analysis, some e) :=
  rfl

/-- C6: within an episode the context and observation stay fixed: after a
reset, any sequence of step calls leaves the environment state (hence
`current_context`) exactly as the reset left it; the reset context is one
of -1.0 and 1.0; and a step returns the state unchanged and the same
observation the reset returned. -/
theorem scb_episode_frame (b : SimpleContextualBandit) (pick : Fin 2)
    (actions : List Nat) (a : Nat) (ha : a < 3)
    (htab : b.rewards_for_context = SimpleContextualBandit.init.rewards_for_context) :
    runOps (b.reset pick).1 (actions.map BanditOp.doStep) = (b.reset pick).1 ∧
    ((b.reset pick).1.current_context = some (-1) ∨
      (b.reset pick).1.current_context = some 1) ∧
    ((b.reset pick).1.step a).map (fun out => out.1) = some (b.reset pick).1 ∧
    ((b.reset pick).1.step a).map (fun out => out.2.1) = some (b.reset pick).2 := by
  have hc : ((b.reset pick).1.current_context = some (-1) ∧ (b.reset pick).2 = [1, -1]) ∨
      ((b.reset pick).1.current_context = some 1 ∧ (b.reset pick).2 = [-1, 1]) := by
    fin_cases pick
    · exact Or.inl ⟨rfl, rfl⟩
    · exact Or.inr ⟨rfl, rfl⟩
  have htab' : (b.reset pick).1.rewards_for_context =
      SimpleContextualBandit.init.rewards_for_context := htab
  refine ⟨runOps_doStep_id _ actions, ?_, ?_, ?_⟩
  · rcases hc with ⟨h, _⟩ | ⟨h, _⟩
    · exact Or.inl h
    · exact Or.inr h
  · rcases hc with ⟨h, _⟩ | ⟨h, _⟩ <;>
      rw [step_eval _ _ a (by simp) ha h htab'] <;> rfl
  · rcases hc with ⟨h, hobs⟩ | ⟨h, hobs⟩ <;>
      rw [step_eval _ _ a (by simp) ha h htab', hobs] <;> rfl

/-- C6 witness: the theorem instantiated at the initial environment, a reset
that picked index 1, the step sequence [0, 5], and probe action 2. -/
theorem scb_episode_frame_witness :
    runOps ((SimpleContextualBandit.init.reset 1).1) ([0, 5].map BanditOp.doStep) =
      (SimpleContextualBandit.init.reset 1).1 ∧
    ((SimpleContextualBandit.init.reset 1).1.current_context = some (-1) ∨
      (SimpleContextualBandit.init.reset 1).1.current_context = some 1) ∧
    ((SimpleContextualBandit.init.reset 1).1.step 2).map (fun out => out.1) =
      some (SimpleContextualBandit.init.reset 1).1 ∧
    ((SimpleContextualBandit.init.reset 1).1.step 2).map (fun out => out.2.1) =
      some (SimpleContextualBandit.init.reset 1).2 :=
  scb_episode_frame SimpleContextualBandit.init 1 [0, 5] 2 (by decide) rfl

/-- C7: for context -1.0 action 2 is the unique reward maximizer (reward 10)
and for context 1.0 action 0 is (reward 10); action 1 yields 0 in both
contexts and is never the optimal arm; the regret returned by step is 0 iff
the action is the optimal arm for the context, and is otherwise 10 or 20. -/
theorem scb_unique_optimal_arm (b : SimpleContextualBandit) (c : Int) (a : Nat)
    (hc : c = -1 ∨ c = 1) (ha : a < 3)
    (hctx : b.current_context = some c)
    (htab : b.rewards_for_context = SimpleContextualBandit.init.rewards_for_context) :
    ∃ reward regret,
      b.step a = some (b, [-c, c], reward, true, ⟨regret⟩) ∧
      regret = 10 - reward ∧
      (c = -1 → (reward = 10 ↔ a = 2)) ∧
      (c = 1 → (reward = 10 ↔ a = 0)) ∧
      (a = 1 → reward = 0) ∧
      (regret = 0 ↔ a = optimalArm c) ∧
      (regret = 0 ∨ regret = 10 ∨ regret = 20) ∧
      optimalArm c ≠ 1 := by
  refine ⟨_, _, step_eval b c a hc ha hctx htab, rfl, ?_, ?_, ?_, ?_, ?_, ?_⟩ <;>
    (have ha3 : a = 0 ∨ a = 1 ∨ a = 2 := by omega) <;>
    rcases hc with rfl | rfl <;> rcases ha3 with rfl | rfl | rfl <;>
    simp [optimalArm]

/-- C7 witness: the theorem instantiated at context -1.0 (set by a reset
that picked index 0) and action 2, the optimal arm there. -/
theorem scb_unique_optimal_arm_witness :
    ∃ reward regret,
      (SimpleContextualBandit.init.reset 0).1.step 2 =
        some ((SimpleContextualBandit.init.reset 0).1, [-(-1 : Int), -1], reward, true,
          ⟨regret⟩) ∧
      regret = 10 - reward ∧
      ((-1 : Int) = -1 → (reward = 10 ↔ 2 = 2)) ∧
      ((-1 : Int) = 1 → (reward = 10 ↔ 2 = 0)) ∧
      ((2 : Nat) = 1 → reward = 0) ∧
      (regret = 0 ↔ 2 = optimalArm (-1)) ∧
      (regret = 0 ∨ regret = 10 ∨ regret = 20) ∧
      optimalArm (-1) ≠ 1 :=
  scb_unique_optimal_arm (SimpleContextualBandit.init.reset 0).1 (-1) 2
    (Or.inl rfl) (by decide) rfl rfl

/-- C8: the bandit's reward is linear in the context: with per-arm
coefficients m = [10, 0, -10], the table entry for context c and arm a is
`m_a * c` for c in {-1.0, 1.0} and a in {0, 1, 2}; in particular each arm's
reward for context -1.0 is the negation of its reward for context 1.0. -/
theorem scb_reward_linear_in_context (c : Int) (a : Nat)
    (hc : c = -1 ∨ c = 1) (ha : a < 3) :
    (SimpleContextualBandit.init.rewards_for_context.lookup c).bind
        (fun rs => rs[a]?) = some (m_coefficients.getD a 0 * c) ∧
    (SimpleContextualBandit.init.rewards_for_context.lookup (-1)).bind
        (fun rs => rs[a]?) =
      ((SimpleContextualBandit.init.rewards_for_context.lookup 1).bind
        (fun rs => rs[a]?)).map (fun r => -r) := by
  have ha3 : a = 0 ∨ a = 1 ∨ a = 2 := by omega
  rcases hc with rfl | rfl <;> rcases ha3 with rfl | rfl | rfl <;> decide

/-- C8 witness: the theorem instantiated at context -1.0 and arm 2, whose
table entry -10 * -1 = 10 negates the entry -10 for context 1.0. -/
theorem scb_reward_linear_in_context_witness :
    (SimpleContextualBandit.init.rewards_for_context.lookup (-1)).bind
        (fun rs => rs[2]?) = some (m_coefficients.getD 2 0 * (-1)) ∧
    (SimpleContextualBandit.init.rewards_for_context.lookup (-1)).bind
        (fun rs => rs[2]?) =
      ((SimpleContextualBandit.init.rewards_for_context.lookup 1).bind
        (fun rs => rs[2]?)).map (fun r => -r) :=
  scb_reward_linear_in_context (-1) 2 (Or.inl rfl) (by decide)

/-- C9: `run_with_pool(n)` prints the values 0 through n-1, each followed by
a bar, in increasing order: under the pool's order-preserving map semantics,
`pool.map(f, range(n))` with the identity worker returns [0, ..., n-1] in
input order and the printed fragments are exactly those values barred. -/
theorem run_with_pool_output (n : Nat) :
    poolMap f (List.range n) = List.range n ∧
    run_with_pool n = (List.range n).map (fun i => toString i ++ "|") := by
  constructor
  · exact (List.map_congr_left (fun a _ => rfl)).trans (List.map_id _)
  · unfold run_with_pool poolMap
    rw [List.map_map]
    exact List.map_congr_left (fun a _ => rfl)

/-- C10: the fcnet_hiddens configuration built from two grid_search([20, 40])
axes determines exactly the four hyperparameter combinations [20, 20],
[20, 40], [40, 20] and [40, 40], one trial per combination. -/
theorem tune_grid_four_combos :
    gridCombos fcnet_hiddens_grid = [[20, 20], [20, 40], [40, 20], [40, 40]] ∧
    (gridCombos fcnet_hiddens_grid).length = 4 := by
  decide
